import Mathlib

/-!
Verification development for the universal-ibs-validator repository.

The engine (engine.py) reconciles two tabular datasets against a list of
validation rules: filter, group-by-sum on the rule grouping dimensions,
full outer join with zero fill, then an operator-specific failure predicate
with tolerance.  The confidentiality module (confidentiality.py) classifies
each row of a dataset by its share of its group total.

Shallow embedding choices:
- A dataset row is an association list from column names to cells; a cell is
  a string or a rational number.  Machine floats of the source are modelled
  by exact rationals, except where division by zero matters: there the IEEE
  outcomes (plus and minus infinity, not-a-number) are modelled explicitly
  by the FloatVal type, because pandas float division by zero returns these
  values rather than raising.
- Rule filters are arbitrary functions returning Except, modelling the
  caller-supplied selection code that the engine wraps in try/except.
- In-place mutation of the Python code (column uppercasing in validate,
  status-column assignment in tag_dataset) is modelled by returning the
  mutated datasets explicitly.
-/

namespace UIV

/-- A cell of a tabular dataset: a dimension code (string) or a numeric value. -/
inductive Cell where
  | str : String → Cell
  | num : ℚ → Cell
deriving DecidableEq, Repr

/-- A row: an association list from column names to cells. -/
abbrev Row := List (String × Cell)

/-- A dataset: a list of rows. -/
abbrev DataFrame := List Row

/-- Look up the cell of column c in a row (first binding wins, as in a dict). -/
def rowCell : Row → String → Option Cell
  | [], _ => none
  | (c, v) :: rest, c0 => if c = c0 then some v else rowCell rest c0

/-- Uppercase a column name character by character (str.upper of the source;
stated over the character list so that it evaluates by kernel reduction). -/
def upperName (s : String) : String := List.asString (s.data.map Char.toUpper)

/-- Uppercase every column name of a row (models df.columns = upper). -/
def upperRow (r : Row) : Row := r.map (fun p => (upperName p.1, p.2))

/-- Uppercase every column name of a dataset. -/
def upperDF (df : DataFrame) : DataFrame := df.map upperRow

/-- Numeric content of column c of a row; rows outside the well-formed domain
(column absent or non-numeric) read as 0. -/
def valueOfCol (c : String) (r : Row) : ℚ :=
  match rowCell r c with
  | some (Cell.num q) => q
  | _ => 0

/-- The grouping key of a row: its cells at the given dimension columns,
as extracted by groupby(dims). -/
def keyOf (dims : List String) (r : Row) : List (Option Cell) :=
  dims.map (fun d => rowCell r d)

/-- Sum of the VALUE column over the rows of one group, i.e. the entry that
groupby(dims)[VALUE].sum() produces for key k (0 when the key is absent,
which is exactly the outer-join fillna(0) semantics). -/
def groupSum (dims : List String) (rows : DataFrame) (k : List (Option Cell)) : ℚ :=
  ((rows.filter (fun r => decide (keyOf dims r = k))).map (valueOfCol "VALUE")).sum

/-- The distinct grouping keys of a dataset, one per aggregate row. -/
def distinctKeys (dims : List String) (rows : DataFrame) : List (List (Option Cell)) :=
  (rows.map (keyOf dims)).dedup

/-- One row of the merged aggregate frame: key, LHS_VALUE, RHS_VALUE. -/
structure JoinedRow where
  key : List (Option Cell)
  lhs_value : ℚ
  rhs_value : ℚ
deriving DecidableEq, Repr

/-- Keys of the full outer join: keys of the left aggregate, then keys
present only in the right aggregate. -/
def outerKeys (dims : List String) (lhsData rhsData : DataFrame) :
    List (List (Option Cell)) :=
  let lks := distinctKeys dims lhsData
  lks ++ (distinctKeys dims rhsData).filter (fun k => decide (k ∉ lks))

/-- The merged frame of pd.merge(lhs_agg, rhs_agg, on=dims, how=outer).fillna(0):
for every key of either side, the per-side group sums, a missing side
contributing 0. -/
def joinAggregates (dims : List String) (lhsData rhsData : DataFrame) :
    List JoinedRow :=
  (outerKeys dims lhsData rhsData).map
    (fun k => ⟨k, groupSum dims lhsData k, groupSum dims rhsData k⟩)

/-- The comparison operator of a rule (the Literal type of domain_types.py). -/
inductive Operator where
  | eq : Operator
  | gte : Operator
  | lte : Operator
deriving DecidableEq, Repr

/-- Failure predicate of _process_rule: IS_FAIL as a function of the
operator, tolerance and DIFF. -/
def isFail (op : Operator) (tolerance : ℚ) (diff : ℚ) : Bool :=
  match op with
  | Operator.eq => decide (|diff| > tolerance)
  | Operator.gte => decide (diff < -tolerance)
  | Operator.lte => decide (diff > tolerance)

/-- Operator symbol recorded on failure rows. -/
def opSymbol (op : Operator) : String :=
  match op with
  | Operator.eq => "="
  | Operator.gte => ">="
  | Operator.lte => "<="

/-- ValidationContext of domain_types.py. -/
structure ValidationContext where
  reporting_country : String
  currency_code : String
  quarter : String
deriving DecidableEq, Repr

/-- ValidationRule of domain_types.py.  The filters model the caller-supplied
selection functions; a raised exception is modelled by Except.error. -/
structure ValidationRule where
  rule_id : String
  description : String
  lhs_filter : DataFrame → ValidationContext → Except String DataFrame
  rhs_filter : DataFrame → ValidationContext → Except String DataFrame
  join_dims : List String
  operator : Operator
  tolerance : ℚ

/-- One failure record: the grouping key, both aggregates, the difference and
the rule metadata. -/
structure FailureRecord where
  key : List (Option Cell)
  lhs_value : ℚ
  rhs_value : ℚ
  diff : ℚ
  rule_id : String
  description : String
  operator_symbol : String
deriving DecidableEq, Repr

/-- The failure record _process_rule materialises for a joined row. -/
def mkFailure (rule : ValidationRule) (j : JoinedRow) : FailureRecord :=
  ⟨j.key, j.lhs_value, j.rhs_value, j.lhs_value - j.rhs_value,
   rule.rule_id, rule.description, opSymbol rule.operator⟩

/-- The failing rows of the merged frame, as failure records. -/
def ruleFailures (rule : ValidationRule) (lhsData rhsData : DataFrame) :
    List FailureRecord :=
  ((joinAggregates rule.join_dims lhsData rhsData).filter
      (fun j => isFail rule.operator rule.tolerance (j.lhs_value - j.rhs_value))).map
    (mkFailure rule)

/-- The batch of failures one call of _process_rule emits: empty when a filter
raises (the try/except path) or when both filtered subsets are empty. -/
def ruleBatch (ctx : ValidationContext) (rule : ValidationRule)
    (lhs_raw rhs_raw : DataFrame) : List FailureRecord :=
  match rule.lhs_filter lhs_raw ctx, rule.rhs_filter rhs_raw ctx with
  | Except.ok lhsData, Except.ok rhsData =>
      if lhsData.isEmpty && rhsData.isEmpty then []
      else ruleFailures rule lhsData rhsData
  | _, _ => []

/-- _process_rule: appends the batch to self.results when it is non-empty. -/
def processRule (ctx : ValidationContext) (rule : ValidationRule)
    (lhs_raw rhs_raw : DataFrame) (results : List (List FailureRecord)) :
    List (List FailureRecord) :=
  let b := ruleBatch ctx rule lhs_raw rhs_raw
  if b.isEmpty then results else results ++ [b]

/-- The rule loop of validate. -/
def processRules (ctx : ValidationContext) (rules : List ValidationRule)
    (lhs rhs : DataFrame) (results : List (List FailureRecord)) :
    List (List FailureRecord) :=
  rules.foldl (fun acc rule => processRule ctx rule lhs rhs acc) results

/-- IBSValidator: the context and the accumulated result batches. -/
structure IBSValidator where
  context : ValidationContext
  results : List (List FailureRecord)

/-- A fresh engine instance (the constructor). -/
def mkValidator (ctx : ValidationContext) : IBSValidator := ⟨ctx, []⟩

/-- validate: uppercases the column names of both inputs in place, then runs
every rule.  The mutated inputs are returned explicitly, modelling the
in-place assignment to df.columns that the caller observes. -/
def validate (v : IBSValidator) (lhs_df rhs_df : DataFrame)
    (rules : List ValidationRule) : IBSValidator × DataFrame × DataFrame :=
  let lhs := upperDF lhs_df
  let rhs := upperDF rhs_df
  (⟨v.context, processRules v.context rules lhs rhs v.results⟩, lhs, rhs)

/-- get_failures: pd.concat of the accumulated batches. -/
def getFailures (v : IBSValidator) : List FailureRecord := v.results.flatten

/-!
Disclosure dominance aggregator (confidentiality.py).

The share of a row is its value divided by the group total.  The source
computes this with pandas float division, which does not raise on a zero
divisor: it yields plus infinity for a positive numerator, minus infinity
for a negative one, and NaN for 0 / 0.  FloatVal models exactly this part of
the float semantics; all other arithmetic is exact.
-/

/-- Result of a float division: a finite value or one of the IEEE specials. -/
inductive FloatVal where
  | fin : ℚ → FloatVal
  | posInf : FloatVal
  | negInf : FloatVal
  | nan : FloatVal
deriving DecidableEq, Repr

/-- Float division of exact operands, as pandas performs it. -/
def fdiv (x y : ℚ) : FloatVal :=
  if y = 0 then
    if x > 0 then FloatVal.posInf
    else if x < 0 then FloatVal.negInf
    else FloatVal.nan
  else FloatVal.fin (x / y)

/-- Comparison share > threshold on a float share and a finite threshold:
plus infinity compares greater, minus infinity and NaN do not. -/
def fgt (v : FloatVal) (t : ℚ) : Bool :=
  match v with
  | FloatVal.fin q => decide (q > t)
  | FloatVal.posInf => true
  | FloatVal.negInf => false
  | FloatVal.nan => false

/-- Group total of the value column for the group of row r
(groupby(group_cols)[value_col].transform(sum)). -/
def groupTotal (group_cols : List String) (value_col : String)
    (df : DataFrame) (r : Row) : ℚ :=
  ((df.filter (fun r2 => decide (keyOf group_cols r2 = keyOf group_cols r))).map
    (valueOfCol value_col)).sum

/-- The CONFIDENTIALITY_STATUS the dominance rule assigns to row r:
N when the market share strictly exceeds the threshold, else F. -/
def dominanceStatus (df : DataFrame) (value_col : String)
    (group_cols : List String) (threshold : ℚ) (r : Row) : String :=
  let share := fdiv (valueOfCol value_col r) (groupTotal group_cols value_col df r)
  if fgt share threshold then "N" else "F"

/-- apply_dominance_rule: computes each market share, classifies it, and
returns the dataset with the status column (the temporary market_share
column is dropped again, so the net effect is one added column).  The
contributor column parameter is accepted and unused, as in the source. -/
def apply_dominance_rule (df : DataFrame) (value_col : String)
    (group_cols : List String) (contributor_col : String) (threshold : ℚ) :
    DataFrame :=
  df.map (fun r =>
    r ++ [("CONFIDENTIALITY_STATUS",
           Cell.str (dominanceStatus df value_col group_cols threshold r))])

/-!
Quality tagging (tag_dataset).

tag_dataset calls a helper _get_failed_rows that engine.py references but
never defines; only its call site and an explanatory comment exist in the
source.  getFailedRowIndices below is therefore modelled from the spec.
-/

/-- Modelled from the spec: the helper _get_failed_rows is called by
tag_dataset but is missing from the source.  Per the spec it runs the rule
evaluation of section 4.1 on the single dataset used as both sides and
returns the failing rows of the underlying group-key join; the indices used
by tag_dataset are the positions of those rows in the merged frame, which is
the index pandas leaves on the failing rows, with a filter error isolating
the rule and contributing no indices. -/
def getFailedRowIndices (ctx : ValidationContext) (rule : ValidationRule)
    (dfc : DataFrame) : List ℕ :=
  match rule.lhs_filter dfc ctx, rule.rhs_filter dfc ctx with
  | Except.ok lhsData, Except.ok rhsData =>
      if lhsData.isEmpty && rhsData.isEmpty then []
      else
        ((joinAggregates rule.join_dims lhsData rhsData).enum.filter
          (fun p => isFail rule.operator rule.tolerance
            (p.2.lhs_value - p.2.rhs_value))).map (fun p => p.1)
  | _, _ => []

/-- Set the QUALITY_STATUS column of a row: overwritten in place when the
column already exists, appended otherwise (pandas column assignment). -/
def setQualityStatus (r : Row) (s : String) : Row :=
  if (r.map Prod.fst).contains "QUALITY_STATUS" then
    r.map (fun p => if p.1 = "QUALITY_STATUS" then (p.1, Cell.str s) else p)
  else r ++ [("QUALITY_STATUS", Cell.str s)]

/-- Bulk label assignment df.loc on the status list: every position listed in
idxs becomes FAIL, counting positions from n. -/
def markFail (idxs : List ℕ) : List String → ℕ → List String
  | [], _ => []
  | s :: rest, n => (if n ∈ idxs then "FAIL" else s) :: markFail idxs rest (n + 1)

/-- The copy tag_dataset filters against: the input with the status column
set to PASS (assigned before the copy is taken), column names uppercased. -/
def tagCopy (df : DataFrame) : DataFrame :=
  upperDF (df.map (fun r => setQualityStatus r "PASS"))

/-- The rule loop of tag_dataset acting on the status column. -/
def tagFold (ctx : ValidationContext) (dfc : DataFrame)
    (rules : List ValidationRule) (st : List String) : List String :=
  rules.foldl (fun acc rule => markFail (getFailedRowIndices ctx rule dfc) acc 0) st

/-- Attach the final statuses to the original rows. -/
def zipStatus : DataFrame → List String → DataFrame
  | [], _ => []
  | _ :: _, [] => []
  | r :: rest, s :: ss => setQualityStatus r s :: zipStatus rest ss

/-- tag_dataset: defaults every row to PASS, evaluates every rule on the
uppercased copy, and flips the rows listed by the failed-row indices of any
rule to FAIL. -/
def tag_dataset (ctx : ValidationContext) (df : DataFrame)
    (rules : List ValidationRule) : DataFrame :=
  zipStatus df (tagFold ctx (tagCopy df) rules (List.replicate df.length "PASS"))

/-- Decidable form of: some rule lists row index i among its failed rows. -/
def anyRuleFails (ctx : ValidationContext) (rules : List ValidationRule)
    (dfc : DataFrame) (i : ℕ) : Bool :=
  rules.any (fun rule => decide (i ∈ getFailedRowIndices ctx rule dfc))

/-! Fixtures used by the witness theorems: a context, simple filters and
small concrete datasets. -/

/-- A concrete context (the demo configuration). -/
def ctx0 : ValidationContext := ⟨"CA", "CAD", "2025-Q3"⟩

/-- A filter selecting every row. -/
def idFilter : DataFrame → ValidationContext → Except String DataFrame :=
  fun df _ => Except.ok df

/-- A filter selecting no row. -/
def emptyFilter : DataFrame → ValidationContext → Except String DataFrame :=
  fun _ _ => Except.ok []

/-- A filter modelling a selection that raises (a referenced column absent). -/
def raisingFilter : DataFrame → ValidationContext → Except String DataFrame :=
  fun _ _ => Except.error "column missing"

/-- A one-dimension row with grouping cell g and value v. -/
def rowG (g : String) (v : ℚ) : Row := [("G", Cell.str g), ("VALUE", Cell.num v)]

/-- An equality rule over dimension G with tolerance 1, both sides unfiltered. -/
def ruleEqW : ValidationRule :=
  ⟨"W1", "witness equality rule", idFilter, idFilter, ["G"], Operator.eq, 1⟩

/-- An equality rule whose right side selects nothing. -/
def ruleRightEmptyW : ValidationRule :=
  ⟨"W2", "witness one-sided rule", idFilter, emptyFilter, ["G"], Operator.eq, 1⟩

/-- An equality rule whose left side selects nothing. -/
def ruleLeftEmptyW : ValidationRule :=
  ⟨"W3", "witness one-sided rule", emptyFilter, idFilter, ["G"], Operator.eq, 1⟩

/-- A rule whose left filter raises. -/
def ruleRaisingW : ValidationRule :=
  ⟨"W4", "witness raising rule", raisingFilter, idFilter, ["G"], Operator.eq, 1⟩

/-- A rule whose two filters select disjoint G groups, for quality tagging. -/
def ruleSplitW : ValidationRule :=
  ⟨"W5", "witness tagging rule",
   fun df _ => Except.ok (df.filter (fun r => decide (rowCell r "G" = some (Cell.str "a")))),
   fun df _ => Except.ok (df.filter (fun r => decide (rowCell r "G" = some (Cell.str "b")))),
   ["D"], Operator.eq, 1⟩

/-- Dataset whose two rows share key d but live in groups a and b. -/
def dfSplit : DataFrame :=
  [[("D", Cell.str "d"), ("G", Cell.str "a"), ("VALUE", Cell.num 100)],
   [("D", Cell.str "d"), ("G", Cell.str "b"), ("VALUE", Cell.num 90)]]

/-- A dataset with a lowercase column name. -/
def dfLower : DataFrame := [[("value", Cell.num 1)]]

/-- Contributor-level dataset of the dominance unit test. -/
def dfBanks : DataFrame :=
  [[("REP_CTY", Cell.str "CA"), ("CP_SECTOR", Cell.str "B"),
    ("BANK_ID", Cell.str "BANK_A"), ("VALUE", Cell.num 90)],
   [("REP_CTY", Cell.str "CA"), ("CP_SECTOR", Cell.str "B"),
    ("BANK_ID", Cell.str "BANK_B"), ("VALUE", Cell.num 10)]]

/-- A group whose total is zero although a member is positive. -/
def dfZeroTotal : DataFrame := [rowG "g" 5, rowG "g" (-5)]

/-! Helper lemmas. -/

/-- Mapping a function that fixes every member of a list is the identity. -/
theorem map_eq_self_of_mem {α : Type} (l : List α) (f : α → α)
    (h : ∀ x ∈ l, f x = x) : l.map f = l := by
  induction l with
  | nil => rfl
  | cons a t ih =>
    simp only [List.map_cons, List.cons.injEq]
    exact ⟨h a (List.mem_cons_self a t), ih (fun x hx => h x (List.mem_cons_of_mem a hx))⟩

/-- The Bool failure predicate, in propositional form per operator. -/
theorem isFail_iff (op : Operator) (tolerance diff : ℚ) :
    isFail op tolerance diff = true ↔
      (match op with
       | Operator.eq => |diff| > tolerance
       | Operator.gte => diff < -tolerance
       | Operator.lte => diff > tolerance) := by
  cases op <;> simp [isFail]

/-- A key none of whose rows are present sums to zero. -/
theorem groupSum_eq_zero (dims : List String) (rows : DataFrame)
    (k : List (Option Cell)) (h : ∀ r ∈ rows, keyOf dims r ≠ k) :
    groupSum dims rows k = 0 := by
  unfold groupSum
  have : rows.filter (fun r => decide (keyOf dims r = k)) = [] := by
    rw [List.filter_eq_nil_iff]
    intro a ha
    simpa using h a ha
  rw [this]
  rfl

/-- Membership in the distinct keys of a side. -/
theorem mem_distinctKeys (dims : List String) (rows : DataFrame)
    (k : List (Option Cell)) :
    k ∈ distinctKeys dims rows ↔ ∃ r ∈ rows, keyOf dims r = k := by
  simp [distinctKeys, List.mem_dedup, List.mem_map]

/-- Membership in the outer-join key list. -/
theorem mem_outerKeys (dims : List String) (lhsData rhsData : DataFrame)
    (k : List (Option Cell)) :
    k ∈ outerKeys dims lhsData rhsData ↔
      k ∈ distinctKeys dims lhsData ∨ k ∈ distinctKeys dims rhsData := by
  simp only [outerKeys, List.mem_append, List.mem_filter, decide_eq_true_eq]
  by_cases hl : k ∈ distinctKeys dims lhsData <;> simp [hl]

/-- Every outer-join key contributes its per-side group sums to the merge. -/
theorem mem_joinAggregates_of_key (dims : List String) (lhsData rhsData : DataFrame)
    (k : List (Option Cell)) (h : k ∈ outerKeys dims lhsData rhsData) :
    (⟨k, groupSum dims lhsData k, groupSum dims rhsData k⟩ : JoinedRow) ∈
      joinAggregates dims lhsData rhsData :=
  List.mem_map_of_mem _ h

/-- The merged frame determines each element from its key. -/
theorem mem_joinAggregates_iff (dims : List String) (lhsData rhsData : DataFrame)
    (j : JoinedRow) :
    j ∈ joinAggregates dims lhsData rhsData ↔
      j.key ∈ outerKeys dims lhsData rhsData ∧
      j.lhs_value = groupSum dims lhsData j.key ∧
      j.rhs_value = groupSum dims rhsData j.key := by
  simp only [joinAggregates, List.mem_map]
  constructor
  · rintro ⟨k, hk, rfl⟩
    exact ⟨hk, rfl, rfl⟩
  · rintro ⟨hk, h1, h2⟩
    exact ⟨j.key, hk, by cases j; simp_all⟩

/-- Joining two empty selections yields an empty merge. -/
theorem joinAggregates_nil_nil (dims : List String) :
    joinAggregates dims [] [] = [] := rfl

/-- Membership of a materialised record in the batch of one rule evaluation,
characterised by the failure predicate, for any joined key. -/
theorem mem_ruleBatch_iff (ctx : ValidationContext) (rule : ValidationRule)
    (lhs_raw rhs_raw lhsData rhsData : DataFrame)
    (jk : List (Option Cell)) (jl jr : ℚ)
    (hL : rule.lhs_filter lhs_raw ctx = Except.ok lhsData)
    (hR : rule.rhs_filter rhs_raw ctx = Except.ok rhsData)
    (hj : (⟨jk, jl, jr⟩ : JoinedRow) ∈ joinAggregates rule.join_dims lhsData rhsData) :
    mkFailure rule ⟨jk, jl, jr⟩ ∈ ruleBatch ctx rule lhs_raw rhs_raw ↔
      isFail rule.operator rule.tolerance (jl - jr) = true := by
  have hne : (lhsData.isEmpty && rhsData.isEmpty) = false := by
    rcases hl : lhsData with _ | _
    · rcases hr : rhsData with _ | _
      · subst hl; subst hr
        rw [joinAggregates_nil_nil] at hj
        cases hj
      · simp
    · simp
  unfold ruleBatch
  rw [hL, hR]
  simp only [hne, Bool.false_eq_true, if_false, ruleFailures, List.mem_map,
    List.mem_filter]
  constructor
  · rintro ⟨j, ⟨hjm, hjf⟩, hje⟩
    have hkey : j = ⟨jk, jl, jr⟩ := by
      cases j
      simp only [mkFailure, FailureRecord.mk.injEq] at hje
      simp_all
    rw [hkey] at hjf
    simpa using hjf
  · intro hf
    exact ⟨⟨jk, jl, jr⟩, ⟨hj, by simpa using hf⟩, rfl⟩

/-- A rule whose left filter raises emits nothing. -/
theorem ruleBatch_error_left (ctx : ValidationContext) (rule : ValidationRule)
    (lhs_raw rhs_raw : DataFrame) (e : String)
    (h : rule.lhs_filter lhs_raw ctx = Except.error e) :
    ruleBatch ctx rule lhs_raw rhs_raw = [] := by
  unfold ruleBatch
  rcases hr : rule.rhs_filter rhs_raw ctx with e2 | d <;> rw [h]

/-- A rule whose right filter raises emits nothing. -/
theorem ruleBatch_error_right (ctx : ValidationContext) (rule : ValidationRule)
    (lhs_raw rhs_raw : DataFrame) (e : String)
    (h : rule.rhs_filter rhs_raw ctx = Except.error e) :
    ruleBatch ctx rule lhs_raw rhs_raw = [] := by
  unfold ruleBatch
  rcases hl : rule.lhs_filter lhs_raw ctx with e2 | d <;> rw [h]

/-- A rule with an empty batch leaves the accumulator unchanged. -/
theorem processRule_of_batch_nil (ctx : ValidationContext) (rule : ValidationRule)
    (lhs_raw rhs_raw : DataFrame) (results : List (List FailureRecord))
    (h : ruleBatch ctx rule lhs_raw rhs_raw = []) :
    processRule ctx rule lhs_raw rhs_raw results = results := by
  unfold processRule
  rw [h]
  rfl

/-- C1: for every rule evaluation and every joined grouping-key combination,
the operator failure predicate is exactly: under equality a failure is
emitted iff the absolute difference of the side sums exceeds the tolerance;
under left-greater-or-equal iff the difference is below minus the tolerance;
under left-less-or-equal iff the difference exceeds the tolerance. -/
theorem C1_operator_failure_predicate (ctx : ValidationContext)
    (rule : ValidationRule) (lhs_raw rhs_raw lhsData rhsData : DataFrame)
    (k : List (Option Cell)) (l r : ℚ)
    (hL : rule.lhs_filter lhs_raw ctx = Except.ok lhsData)
    (hR : rule.rhs_filter rhs_raw ctx = Except.ok rhsData)
    (hj : (⟨k, l, r⟩ : JoinedRow) ∈ joinAggregates rule.join_dims lhsData rhsData) :
    mkFailure rule ⟨k, l, r⟩ ∈ ruleBatch ctx rule lhs_raw rhs_raw ↔
      (match rule.operator with
       | Operator.eq => |l - r| > rule.tolerance
       | Operator.gte => l - r < -rule.tolerance
       | Operator.lte => l - r > rule.tolerance) :=
  (mem_ruleBatch_iff ctx rule lhs_raw rhs_raw lhsData rhsData k l r hL hR hj).trans
    (isFail_iff rule.operator rule.tolerance (l - r))

/-- Witness for C1 at a concrete equality rule: left sum 100 and right sum 90
at the single key, tolerance 1. -/
theorem C1_witness :
    (ruleEqW.lhs_filter [rowG "k" 100] ctx0 = Except.ok [rowG "k" 100]) ∧
    (ruleEqW.rhs_filter [rowG "k" 90] ctx0 = Except.ok [rowG "k" 90]) ∧
    ((⟨[some (Cell.str "k")], 100, 90⟩ : JoinedRow) ∈
      joinAggregates ruleEqW.join_dims [rowG "k" 100] [rowG "k" 90]) ∧
    (mkFailure ruleEqW ⟨[some (Cell.str "k")], 100, 90⟩ ∈
        ruleBatch ctx0 ruleEqW [rowG "k" 100] [rowG "k" 90] ↔
      |(100 : ℚ) - 90| > ruleEqW.tolerance) := by
  have hj : (⟨[some (Cell.str "k")], 100, 90⟩ : JoinedRow) ∈
      joinAggregates ruleEqW.join_dims [rowG "k" 100] [rowG "k" 90] := by
    simp [joinAggregates, outerKeys, distinctKeys, keyOf, rowCell, groupSum,
      valueOfCol, rowG, ruleEqW]
  exact ⟨rfl, rfl, hj,
    C1_operator_failure_predicate ctx0 ruleEqW _ _ _ _ _ _ _ rfl rfl hj⟩

/-- C2: a grouping key present on only one side of the join receives zero on
the missing side; for a key present only on the left, an equality rule with
tolerance T emits a failure iff the absolute left sum exceeds T. -/
theorem C2_outer_join_zero_fill (ctx : ValidationContext) (rule : ValidationRule)
    (lhs_raw rhs_raw lhsData rhsData : DataFrame) (k : List (Option Cell))
    (hL : rule.lhs_filter lhs_raw ctx = Except.ok lhsData)
    (hR : rule.rhs_filter rhs_raw ctx = Except.ok rhsData) :
    ((∃ row ∈ lhsData, keyOf rule.join_dims row = k) →
      (∀ row ∈ rhsData, keyOf rule.join_dims row ≠ k) →
        (⟨k, groupSum rule.join_dims lhsData k, 0⟩ : JoinedRow) ∈
            joinAggregates rule.join_dims lhsData rhsData ∧
          (rule.operator = Operator.eq →
            (mkFailure rule ⟨k, groupSum rule.join_dims lhsData k, 0⟩ ∈
                ruleBatch ctx rule lhs_raw rhs_raw ↔
              |groupSum rule.join_dims lhsData k| > rule.tolerance))) ∧
    ((∃ row ∈ rhsData, keyOf rule.join_dims row = k) →
      (∀ row ∈ lhsData, keyOf rule.join_dims row ≠ k) →
        (⟨k, 0, groupSum rule.join_dims rhsData k⟩ : JoinedRow) ∈
          joinAggregates rule.join_dims lhsData rhsData) := by
  constructor
  · intro hin hout
    have hz : groupSum rule.join_dims rhsData k = 0 := groupSum_eq_zero _ _ _ hout
    have hk : k ∈ outerKeys rule.join_dims lhsData rhsData :=
      (mem_outerKeys _ _ _ _).2 (Or.inl ((mem_distinctKeys _ _ _).2 hin))
    have hmem := mem_joinAggregates_of_key _ _ _ _ hk
    rw [hz] at hmem
    refine ⟨hmem, fun hop => ?_⟩
    rw [mem_ruleBatch_iff ctx rule lhs_raw rhs_raw lhsData rhsData k
      (groupSum rule.join_dims lhsData k) 0 hL hR hmem, isFail_iff, hop]
    simp
  · intro hin hout
    have hz : groupSum rule.join_dims lhsData k = 0 := groupSum_eq_zero _ _ _ hout
    have hk : k ∈ outerKeys rule.join_dims lhsData rhsData :=
      (mem_outerKeys _ _ _ _).2 (Or.inr ((mem_distinctKeys _ _ _).2 hin))
    have hmem := mem_joinAggregates_of_key _ _ _ _ hk
    rw [hz] at hmem
    exact hmem

/-- Witness for C2: left key x with sum 5 absent from the right side joins as
5 versus 0 and fails the tolerance-1 equality check. -/
theorem C2_witness :
    (ruleEqW.lhs_filter [rowG "x" 5] ctx0 = Except.ok [rowG "x" 5]) ∧
    (ruleEqW.rhs_filter [rowG "y" 7] ctx0 = Except.ok [rowG "y" 7]) ∧
    (∃ row ∈ [rowG "x" 5], keyOf ruleEqW.join_dims row = [some (Cell.str "x")]) ∧
    (∀ row ∈ [rowG "y" 7], keyOf ruleEqW.join_dims row ≠ [some (Cell.str "x")]) ∧
    ((⟨[some (Cell.str "x")],
        groupSum ruleEqW.join_dims [rowG "x" 5] [some (Cell.str "x")], 0⟩ : JoinedRow) ∈
        joinAggregates ruleEqW.join_dims [rowG "x" 5] [rowG "y" 7] ∧
      (ruleEqW.operator = Operator.eq →
        (mkFailure ruleEqW ⟨[some (Cell.str "x")],
            groupSum ruleEqW.join_dims [rowG "x" 5] [some (Cell.str "x")], 0⟩ ∈
            ruleBatch ctx0 ruleEqW [rowG "x" 5] [rowG "y" 7] ↔
          |groupSum ruleEqW.join_dims [rowG "x" 5] [some (Cell.str "x")]| >
            ruleEqW.tolerance))) := by
  refine ⟨rfl, rfl, by decide, by decide, ?_⟩
  exact (C2_outer_join_zero_fill ctx0 ruleEqW _ _ _ _ _ rfl rfl).1
    (by decide) (by decide)

/-- C10: when exactly one filtered side is empty, the evaluation is not
vacuous: every key of the non-empty side joins against zero, and the
equality operator flags it iff the absolute value of its sum exceeds the
tolerance.  Both orientations are stated. -/
theorem C10_one_sided_join (ctx : ValidationContext) (rule : ValidationRule)
    (lhs_raw rhs_raw data : DataFrame) (k : List (Option Cell))
    (hop : rule.operator = Operator.eq)
    (hk : ∃ row ∈ data, keyOf rule.join_dims row = k) :
    ((rule.lhs_filter lhs_raw ctx = Except.ok data ∧
      rule.rhs_filter rhs_raw ctx = Except.ok []) →
        (⟨k, groupSum rule.join_dims data k, 0⟩ : JoinedRow) ∈
            joinAggregates rule.join_dims data [] ∧
          (mkFailure rule ⟨k, groupSum rule.join_dims data k, 0⟩ ∈
              ruleBatch ctx rule lhs_raw rhs_raw ↔
            |groupSum rule.join_dims data k| > rule.tolerance)) ∧
    ((rule.lhs_filter lhs_raw ctx = Except.ok [] ∧
      rule.rhs_filter rhs_raw ctx = Except.ok data) →
        (⟨k, 0, groupSum rule.join_dims data k⟩ : JoinedRow) ∈
            joinAggregates rule.join_dims [] data ∧
          (mkFailure rule ⟨k, 0, groupSum rule.join_dims data k⟩ ∈
              ruleBatch ctx rule lhs_raw rhs_raw ↔
            |groupSum rule.join_dims data k| > rule.tolerance)) := by
  have hz : ∀ k2, groupSum rule.join_dims ([] : DataFrame) k2 = 0 :=
    fun k2 => groupSum_eq_zero _ _ _ (by simp)
  constructor
  · rintro ⟨hL, hR⟩
    have hkk : k ∈ outerKeys rule.join_dims data [] :=
      (mem_outerKeys _ _ _ _).2 (Or.inl ((mem_distinctKeys _ _ _).2 hk))
    have hmem := mem_joinAggregates_of_key _ data [] _ hkk
    rw [hz k] at hmem
    refine ⟨hmem, ?_⟩
    rw [mem_ruleBatch_iff ctx rule lhs_raw rhs_raw data [] k
      (groupSum rule.join_dims data k) 0 hL hR hmem, isFail_iff, hop]
    simp
  · rintro ⟨hL, hR⟩
    have hkk : k ∈ outerKeys rule.join_dims [] data :=
      (mem_outerKeys _ _ _ _).2 (Or.inr ((mem_distinctKeys _ _ _).2 hk))
    have hmem := mem_joinAggregates_of_key _ [] data _ hkk
    rw [hz k] at hmem
    refine ⟨hmem, ?_⟩
    rw [mem_ruleBatch_iff ctx rule lhs_raw rhs_raw [] data k 0
      (groupSum rule.join_dims data k) hL hR hmem, isFail_iff, hop]
    constructor
    · intro h
      rwa [zero_sub, abs_neg] at h
    · intro h
      rwa [zero_sub, abs_neg]

/-- Witness for C10: one row of value 5 against an empty right selection. -/
theorem C10_witness :
    (ruleRightEmptyW.operator = Operator.eq) ∧
    (∃ row ∈ [rowG "k" 5], keyOf ruleRightEmptyW.join_dims row = [some (Cell.str "k")]) ∧
    (ruleRightEmptyW.lhs_filter [rowG "k" 5] ctx0 = Except.ok [rowG "k" 5] ∧
      ruleRightEmptyW.rhs_filter [] ctx0 = Except.ok []) ∧
    ((⟨[some (Cell.str "k")],
        groupSum ruleRightEmptyW.join_dims [rowG "k" 5] [some (Cell.str "k")], 0⟩ : JoinedRow) ∈
        joinAggregates ruleRightEmptyW.join_dims [rowG "k" 5] [] ∧
      (mkFailure ruleRightEmptyW ⟨[some (Cell.str "k")],
          groupSum ruleRightEmptyW.join_dims [rowG "k" 5] [some (Cell.str "k")], 0⟩ ∈
          ruleBatch ctx0 ruleRightEmptyW [rowG "k" 5] [] ↔
        |groupSum ruleRightEmptyW.join_dims [rowG "k" 5] [some (Cell.str "k")]| >
          ruleRightEmptyW.tolerance)) := by
  refine ⟨rfl, by decide, ⟨rfl, rfl⟩, ?_⟩
  exact (C10_one_sided_join ctx0 ruleRightEmptyW [rowG "k" 5] [] [rowG "k" 5]
    [some (Cell.str "k")] rfl (by decide)).1 ⟨rfl, rfl⟩

/-- C7: a rule whose two filters both return empty selections emits no
failure and leaves the accumulator unchanged. -/
theorem C7_vacuous_rule (ctx : ValidationContext) (rule : ValidationRule)
    (lhs_raw rhs_raw : DataFrame) (results : List (List FailureRecord))
    (hL : rule.lhs_filter lhs_raw ctx = Except.ok [])
    (hR : rule.rhs_filter rhs_raw ctx = Except.ok []) :
    ruleBatch ctx rule lhs_raw rhs_raw = [] ∧
    processRule ctx rule lhs_raw rhs_raw results = results := by
  have hb : ruleBatch ctx rule lhs_raw rhs_raw = [] := by
    unfold ruleBatch
    rw [hL, hR]
    rfl
  exact ⟨hb, processRule_of_batch_nil _ _ _ _ _ hb⟩

/-- A rule whose two filters both select nothing. -/
def ruleBothEmptyW : ValidationRule :=
  ⟨"W6", "witness vacuous rule", emptyFilter, emptyFilter, ["G"], Operator.eq, 1⟩

/-- A non-empty accumulator for the vacuous-rule witness. -/
def resultsW : List (List FailureRecord) := [[⟨[], 1, 0, 1, "R0", "d", "="⟩]]

/-- Witness for C7: the vacuous rule leaves a non-empty accumulator as is. -/
theorem C7_witness :
    (ruleBothEmptyW.lhs_filter dfSplit ctx0 = Except.ok []) ∧
    (ruleBothEmptyW.rhs_filter dfSplit ctx0 = Except.ok []) ∧
    (ruleBatch ctx0 ruleBothEmptyW dfSplit dfSplit = [] ∧
      processRule ctx0 ruleBothEmptyW dfSplit dfSplit resultsW = resultsW) :=
  ⟨rfl, rfl, C7_vacuous_rule ctx0 ruleBothEmptyW dfSplit dfSplit resultsW rfl rfl⟩

/-- C4: a rule whose filter raises is isolated: it contributes nothing and
validate still evaluates every rule before and after it, so the run equals
the run with that rule removed from the list. -/
theorem C4_filter_error_isolated (v : IBSValidator) (lhs_raw rhs_raw : DataFrame)
    (rules1 rules2 : List ValidationRule) (r : ValidationRule)
    (h : (∃ e, r.lhs_filter (upperDF lhs_raw) v.context = Except.error e) ∨
         (∃ e, r.rhs_filter (upperDF rhs_raw) v.context = Except.error e)) :
    validate v lhs_raw rhs_raw (rules1 ++ r :: rules2) =
      validate v lhs_raw rhs_raw (rules1 ++ rules2) := by
  have hb : ruleBatch v.context r (upperDF lhs_raw) (upperDF rhs_raw) = [] := by
    rcases h with ⟨e, he⟩ | ⟨e, he⟩
    · exact ruleBatch_error_left _ _ _ _ e he
    · exact ruleBatch_error_right _ _ _ _ e he
  simp only [validate, processRules, List.foldl_append, List.foldl_cons]
  rw [processRule_of_batch_nil _ _ _ _ _ hb]

/-- Witness for C4: a raising rule between two healthy rules changes nothing
relative to the run without it. -/
theorem C4_witness :
    ((∃ e, ruleRaisingW.lhs_filter (upperDF dfSplit) (mkValidator ctx0).context =
        Except.error e) ∨
      (∃ e, ruleRaisingW.rhs_filter (upperDF dfSplit) (mkValidator ctx0).context =
        Except.error e)) ∧
    validate (mkValidator ctx0) dfSplit dfSplit
        ([ruleEqW] ++ ruleRaisingW :: [ruleSplitW]) =
      validate (mkValidator ctx0) dfSplit dfSplit ([ruleEqW] ++ [ruleSplitW]) :=
  ⟨Or.inl ⟨"column missing", rfl⟩,
    C4_filter_error_isolated (mkValidator ctx0) dfSplit dfSplit [ruleEqW]
      [ruleSplitW] ruleRaisingW (Or.inl ⟨"column missing", rfl⟩)⟩

/-- C9: two fresh engine instances with the same context produce identical
failure sets from the same datasets and rules: the run is a pure function of
context, inputs and rules. -/
theorem C9_two_run_determinism (v1 v2 : IBSValidator)
    (hctx : v1.context = v2.context) (h1 : v1.results = []) (h2 : v2.results = [])
    (lhs_df rhs_df : DataFrame) (rules : List ValidationRule) :
    getFailures (validate v1 lhs_df rhs_df rules).1 =
      getFailures (validate v2 lhs_df rhs_df rules).1 := by
  simp only [validate, getFailures, hctx, h1, h2]

/-- Witness for C9 on two fresh engines over the split dataset. -/
theorem C9_witness :
    ((mkValidator ctx0).context = (mkValidator ctx0).context) ∧
    ((mkValidator ctx0).results = []) ∧
    getFailures (validate (mkValidator ctx0) dfSplit dfSplit [ruleSplitW]).1 =
      getFailures (validate (mkValidator ctx0) dfSplit dfSplit [ruleSplitW]).1 :=
  ⟨rfl, rfl,
    C9_two_run_determinism (mkValidator ctx0) (mkValidator ctx0) rfl rfl rfl
      dfSplit dfSplit [ruleSplitW]⟩

/-- C8 counterexample: validate uppercases the column names of the datasets
of the caller in place, so a dataset with a lowercase column name is
observed changed after the run, refuting the read-only claim. -/
theorem C8_counterexample :
    (validate (mkValidator ctx0) dfLower dfLower []).2.1 ≠ dfLower := by decide

/-- C8 amended: the only mutation validate performs on the input datasets is
uppercasing their column names; when every column name is already uppercase
both inputs are observed unchanged after the run. -/
theorem C8_inputs_unchanged_when_uppercase (v : IBSValidator)
    (lhs_raw rhs_raw : DataFrame) (rules : List ValidationRule)
    (hl : ∀ row ∈ lhs_raw, ∀ p ∈ row, upperName (Prod.fst p) = Prod.fst p)
    (hr : ∀ row ∈ rhs_raw, ∀ p ∈ row, upperName (Prod.fst p) = Prod.fst p) :
    (validate v lhs_raw rhs_raw rules).2.1 = lhs_raw ∧
    (validate v lhs_raw rhs_raw rules).2.2 = rhs_raw := by
  have key : ∀ df : DataFrame,
      (∀ row ∈ df, ∀ p ∈ row, upperName (Prod.fst p) = Prod.fst p) →
        upperDF df = df := by
    intro df hdf
    refine map_eq_self_of_mem _ _ (fun row hrow => ?_)
    refine map_eq_self_of_mem _ _ (fun p hp => ?_)
    obtain ⟨a, b⟩ := p
    have := hdf row hrow (a, b) hp
    simp only at this
    simp [this]
  exact ⟨key lhs_raw hl, key rhs_raw hr⟩

/-- Witness for C8 amended: an all-uppercase dataset is unchanged. -/
theorem C8_witness :
    (∀ row ∈ dfSplit, ∀ p ∈ row, upperName (Prod.fst p) = Prod.fst p) ∧
    ((validate (mkValidator ctx0) dfSplit dfSplit [ruleEqW]).2.1 = dfSplit ∧
      (validate (mkValidator ctx0) dfSplit dfSplit [ruleEqW]).2.2 = dfSplit) :=
  ⟨by decide,
    C8_inputs_unchanged_when_uppercase (mkValidator ctx0) dfSplit dfSplit
      [ruleEqW] (by decide) (by decide)⟩

/-- The bulk FAIL assignment preserves the length of the status list. -/
theorem markFail_length (idxs : List ℕ) (st : List String) (n : ℕ) :
    (markFail idxs st n).length = st.length := by
  induction st generalizing n with
  | nil => rfl
  | cons s rest ih => simp [markFail, ih]

/-- Elementwise description of the bulk FAIL assignment. -/
theorem markFail_getElem? (idxs : List ℕ) (st : List String) (n i : ℕ) :
    (markFail idxs st n)[i]? =
      (st[i]?).map (fun s => if n + i ∈ idxs then "FAIL" else s) := by
  induction st generalizing n i with
  | nil => simp [markFail]
  | cons s rest ih =>
    cases i with
    | zero => simp [markFail]
    | succ j =>
      have hn : n + (j + 1) = n + 1 + j := by omega
      simp only [markFail, List.getElem?_cons_succ, ih (n + 1) j, hn]

/-- The tagging rule loop preserves the length of the status list. -/
theorem tagFold_length (ctx : ValidationContext) (dfc : DataFrame)
    (rules : List ValidationRule) (st : List String) :
    (tagFold ctx dfc rules st).length = st.length := by
  induction rules generalizing st with
  | nil => rfl
  | cons r rest ih =>
    have h1 : tagFold ctx dfc (r :: rest) st =
        tagFold ctx dfc rest (markFail (getFailedRowIndices ctx r dfc) st 0) := rfl
    rw [h1, ih, markFail_length]

/-- Elementwise description of the tagging rule loop: a position reads FAIL
iff some rule lists it, PASS positions keep their previous status. -/
theorem tagFold_getElem? (ctx : ValidationContext) (dfc : DataFrame)
    (rules : List ValidationRule) (st : List String) (i : ℕ) :
    (tagFold ctx dfc rules st)[i]? =
      (st[i]?).map (fun s => if anyRuleFails ctx rules dfc i then "FAIL" else s) := by
  induction rules generalizing st with
  | nil =>
    have h0 : anyRuleFails ctx [] dfc i = false := rfl
    have h1 : tagFold ctx dfc [] st = st := rfl
    rw [h0, h1]
    cases hst : st[i]? <;> simp
  | cons r rest ih =>
    have h1 : tagFold ctx dfc (r :: rest) st =
        tagFold ctx dfc rest (markFail (getFailedRowIndices ctx r dfc) st 0) := rfl
    rw [h1, ih, markFail_getElem?, Option.map_map]
    cases hst : st[i]? with
    | none => rfl
    | some s =>
      simp only [Option.map_some', Function.comp_apply, Option.some.injEq]
      have hany : anyRuleFails ctx (r :: rest) dfc i =
          (decide (i ∈ getFailedRowIndices ctx r dfc) || anyRuleFails ctx rest dfc i) := rfl
      rw [hany]
      by_cases h2 : i ∈ getFailedRowIndices ctx r dfc
      · by_cases h3 : anyRuleFails ctx rest dfc i = true <;> simp [h2, h3]
      · simp [h2]

/-- The status attachment preserves row count when the lengths agree. -/
theorem zipStatus_length (df : DataFrame) (st : List String)
    (h : st.length = df.length) : (zipStatus df st).length = df.length := by
  induction df generalizing st with
  | nil => rfl
  | cons r rest ih =>
    cases st with
    | nil => simp at h
    | cons s ss =>
      have h2 : ss.length = rest.length := by simpa using h
      simp [zipStatus, ih ss h2]

/-- Elementwise description of the status attachment. -/
theorem zipStatus_getElem? (df : DataFrame) (st : List String) (i : ℕ) :
    (zipStatus df st)[i]? =
      (df[i]?).bind (fun r => (st[i]?).map (fun s => setQualityStatus r s)) := by
  induction df generalizing st i with
  | nil => simp [zipStatus]
  | cons r rest ih =>
    cases st with
    | nil =>
      cases i <;> simp [zipStatus]
    | cons s ss =>
      cases i with
      | zero => simp [zipStatus]
      | succ j => simp [zipStatus, ih]

/-- C3: tag_dataset returns a dataset of the same row count and order, each
row extended by the quality status column; a row reads FAIL iff its index
appears among the failing rows of the group-key join of at least one rule,
and PASS (the default) otherwise. -/
theorem C3_tag_dataset_contract (ctx : ValidationContext) (df : DataFrame)
    (rules : List ValidationRule) (i : ℕ) (row : Row)
    (hrow : df[i]? = some row) :
    (tag_dataset ctx df rules).length = df.length ∧
    (tag_dataset ctx df rules)[i]? =
      some (setQualityStatus row
        (if anyRuleFails ctx rules (tagCopy df) i then "FAIL" else "PASS")) ∧
    (anyRuleFails ctx rules (tagCopy df) i = true ↔
      ∃ rule ∈ rules, i ∈ getFailedRowIndices ctx rule (tagCopy df)) := by
  have hi : i < df.length := by
    rcases List.getElem?_eq_some_iff.1 hrow with ⟨hlt, _⟩
    exact hlt
  refine ⟨?_, ?_, ?_⟩
  · unfold tag_dataset
    rw [zipStatus_length]
    rw [tagFold_length, List.length_replicate]
  · unfold tag_dataset
    rw [zipStatus_getElem?, hrow, tagFold_getElem?,
      List.getElem?_replicate_of_lt hi]
    rfl
  · simp [anyRuleFails]

/-- Witness for C3 on the split dataset: the tagging rule compares group a
(sum 100) with group b (sum 90) on the shared key d, fails, and flips the
row at the failing join position 0 to FAIL while row 1 keeps PASS. -/
theorem C3_witness :
    (dfSplit[0]? = some [("D", Cell.str "d"), ("G", Cell.str "a"),
      ("VALUE", Cell.num 100)]) ∧
    ((tag_dataset ctx0 dfSplit [ruleSplitW]).length = dfSplit.length ∧
      (tag_dataset ctx0 dfSplit [ruleSplitW])[0]? =
        some (setQualityStatus [("D", Cell.str "d"), ("G", Cell.str "a"),
          ("VALUE", Cell.num 100)]
          (if anyRuleFails ctx0 [ruleSplitW] (tagCopy dfSplit) 0 then "FAIL"
           else "PASS")) ∧
      (anyRuleFails ctx0 [ruleSplitW] (tagCopy dfSplit) 0 = true ↔
        ∃ rule ∈ [ruleSplitW], 0 ∈ getFailedRowIndices ctx0 rule (tagCopy dfSplit))) :=
  ⟨rfl, C3_tag_dataset_contract ctx0 dfSplit [ruleSplitW] 0 _ rfl⟩

/-- C5 evaluated at the failing input: the group of key g totals zero, yet
the row of value 5 receives an infinite share (float division 5 / 0) and is
classified N, where the specification prescribes F for every row of a
zero-total group. -/
theorem C5_zero_total_positive_row_marked_N :
    groupTotal ["G"] "VALUE" dfZeroTotal (rowG "g" 5) = 0 ∧
    (apply_dominance_rule dfZeroTotal "VALUE" ["G"] "BANK_ID" (3 / 5))[0]? =
      some (rowG "g" 5 ++ [("CONFIDENTIALITY_STATUS", Cell.str "N")]) := by
  have htot : groupTotal ["G"] "VALUE" dfZeroTotal (rowG "g" 5) = 0 := by
    simp [groupTotal, keyOf, rowCell, valueOfCol, dfZeroTotal, rowG]
  refine ⟨htot, ?_⟩
  have hv : valueOfCol "VALUE" (rowG "g" 5) = 5 := by
    simp [valueOfCol, rowG, rowCell]
  have hst : dominanceStatus dfZeroTotal "VALUE" ["G"] (3 / 5) (rowG "g" 5) = "N" := by
    unfold dominanceStatus
    rw [htot, hv]
    norm_num [fdiv, fgt]
  have h0 : dfZeroTotal[0]? = some (rowG "g" 5) := rfl
  unfold apply_dominance_rule
  rw [List.getElem?_map, h0, Option.map_some', hst]

/-- C6: a row whose group total is nonzero is classified N iff its share,
the row value divided by the group total, strictly exceeds the threshold,
and F otherwise; in particular a share exactly at the threshold yields F. -/
theorem C6_dominance_strict_threshold (df : DataFrame) (value_col : String)
    (group_cols : List String) (contributor_col : String) (threshold : ℚ)
    (i : ℕ) (r : Row) (hrow : df[i]? = some r)
    (hnz : groupTotal group_cols value_col df r ≠ 0) :
    ((apply_dominance_rule df value_col group_cols contributor_col threshold)[i]? =
      some (r ++ [("CONFIDENTIALITY_STATUS", Cell.str
        (if valueOfCol value_col r / groupTotal group_cols value_col df r > threshold
         then "N" else "F"))])) ∧
    (valueOfCol value_col r / groupTotal group_cols value_col df r = threshold →
      (apply_dominance_rule df value_col group_cols contributor_col threshold)[i]? =
        some (r ++ [("CONFIDENTIALITY_STATUS", Cell.str "F")])) := by
  have hs : dominanceStatus df value_col group_cols threshold r =
      (if valueOfCol value_col r / groupTotal group_cols value_col df r > threshold
       then "N" else "F") := by
    unfold dominanceStatus fgt fdiv
    rw [if_neg hnz]
    simp
  have happ :
      (apply_dominance_rule df value_col group_cols contributor_col threshold)[i]? =
        some (r ++ [("CONFIDENTIALITY_STATUS", Cell.str
          (dominanceStatus df value_col group_cols threshold r))]) := by
    unfold apply_dominance_rule
    rw [List.getElem?_map, hrow, Option.map_some']
  rw [happ, hs]
  refine ⟨rfl, fun h => ?_⟩
  rw [if_neg]
  rw [h]
  exact lt_irrefl threshold

/-- Witness for C6 at the dominance unit test data: bank A holds 90 of the
group total 100, share 9 / 10 above the threshold 3 / 5. -/
theorem C6_witness :
    (dfBanks[0]? = some [("REP_CTY", Cell.str "CA"), ("CP_SECTOR", Cell.str "B"),
      ("BANK_ID", Cell.str "BANK_A"), ("VALUE", Cell.num 90)]) ∧
    (groupTotal ["REP_CTY", "CP_SECTOR"] "VALUE" dfBanks
      [("REP_CTY", Cell.str "CA"), ("CP_SECTOR", Cell.str "B"),
       ("BANK_ID", Cell.str "BANK_A"), ("VALUE", Cell.num 90)] ≠ 0) ∧
    ((apply_dominance_rule dfBanks "VALUE" ["REP_CTY", "CP_SECTOR"] "BANK_ID"
        (3 / 5))[0]? =
      some ([("REP_CTY", Cell.str "CA"), ("CP_SECTOR", Cell.str "B"),
        ("BANK_ID", Cell.str "BANK_A"), ("VALUE", Cell.num 90)] ++
        [("CONFIDENTIALITY_STATUS", Cell.str
          (if valueOfCol "VALUE" [("REP_CTY", Cell.str "CA"),
                ("CP_SECTOR", Cell.str "B"), ("BANK_ID", Cell.str "BANK_A"),
                ("VALUE", Cell.num 90)] /
              groupTotal ["REP_CTY", "CP_SECTOR"] "VALUE" dfBanks
                [("REP_CTY", Cell.str "CA"), ("CP_SECTOR", Cell.str "B"),
                 ("BANK_ID", Cell.str "BANK_A"), ("VALUE", Cell.num 90)] >
              (3 / 5 : ℚ)
           then "N" else "F"))])) := by
  have hnz : groupTotal ["REP_CTY", "CP_SECTOR"] "VALUE" dfBanks
      [("REP_CTY", Cell.str "CA"), ("CP_SECTOR", Cell.str "B"),
       ("BANK_ID", Cell.str "BANK_A"), ("VALUE", Cell.num 90)] ≠ 0 := by
    simp [groupTotal, keyOf, rowCell, valueOfCol, dfBanks]
    norm_num
  exact ⟨rfl, hnz,
    (C6_dominance_strict_threshold dfBanks "VALUE" ["REP_CTY", "CP_SECTOR"]
      "BANK_ID" (3 / 5) 0 _ rfl hnz).1⟩

end UIV
